import Mathlib

/-
  Verification of the Danni/Szczys button-debounce module
  (src/debounce-test.c) against its natural-language specification.

  The C module keeps all state in 8-bit variables (`unsigned char`):
  three shared bitmasks (key_state, key_press, key_rpt, lines 40-42),
  the two bit-sliced counter bytes ct0/ct1 and the repeat countdown rpt
  (statics of the timer ISR, line 142).  We embed each byte as a `Nat`;
  a value is well-formed when it is below 256, and the theorems that
  depend on the 8-bit width carry that bound as a hypothesis.  The
  bitwise operations of the ISR cannot overflow 8 bits on well-formed
  input, so no truncation step is inserted for them; the single place
  where `unsigned char` wrap-around matters, the pre-decrement `--rpt`
  on line 156, is modelled with an explicit `% 256`.

  The `cli()/sei()` critical sections make every C query function one
  atomic step with respect to the timer interrupt; the embedding models
  this by making each query a single state-to-state function, and the
  ISR another.  An execution of the program is any interleaving of
  whole `isrTick` steps and whole query steps.
-/

set_option maxHeartbeats 1000000
set_option maxRecDepth 4000

/-- State of the debounce module: the three shared event/level bitmasks
(lines 40-42 of the source) together with the ISR-static counter bytes
`ct0`, `ct1` and the repeat countdown `rpt` (line 142).  Each field
models one `unsigned char`. -/
structure DebounceState where
  key_state : Nat
  key_press : Nat
  key_rpt : Nat
  ct0 : Nat
  ct1 : Nat
  rpt : Nat
deriving DecidableEq, Repr

/-- REPEAT_MASK (line 37): keys 7,6,5,4 participate in the repeat
function, so the mask is 0xF0. -/
def REPEAT_MASK : Nat := (1 <<< 7) ||| (1 <<< 6) ||| (1 <<< 5) ||| (1 <<< 4)

/-- REPEAT_START (line 38): countdown reload while no repeat-eligible
key is pressed. -/
def REPEAT_START : Nat := 50

/-- REPEAT_NEXT (line 39): countdown reload after the repeat fires. -/
def REPEAT_NEXT : Nat := 20

/-- Bitwise complement restricted to 8 bits: models the C operator `~`
applied to an `unsigned char` value and truncated back to a byte. -/
def not8 (x : Nat) : Nat := x ^^^ 255

/-- get_key_press (lines 49-56): `key_mask &= key_press` is the result,
`key_press ^= key_mask` clears exactly the returned bits.  The pair is
(returned mask, state after the call); the cli/sei bracket of the C
code makes the whole function one atomic step, which the embedding
represents by the function being a single state transformation. -/
def get_key_press (s : DebounceState) (key_mask : Nat) : Nat × DebounceState :=
  let ret := key_mask &&& s.key_press
  (ret, { s with key_press := s.key_press ^^^ ret })

/-- get_key_rpt (lines 64-71): identical drain pattern on key_rpt. -/
def get_key_rpt (s : DebounceState) (key_mask : Nat) : Nat × DebounceState :=
  let ret := key_mask &&& s.key_rpt
  (ret, { s with key_rpt := s.key_rpt ^^^ ret })

/-- get_key_short (lines 78-82): `return get_key_press( ~key_state & key_mask )`. -/
def get_key_short (s : DebounceState) (key_mask : Nat) : Nat × DebounceState :=
  get_key_press s (not8 s.key_state &&& key_mask)

/-- get_key_long (lines 90-93): `return get_key_press( get_key_rpt( key_mask ))`,
so the repeat bits are consumed first and the result masks the press drain. -/
def get_key_long (s : DebounceState) (key_mask : Nat) : Nat × DebounceState :=
  let r := get_key_rpt s key_mask
  get_key_press r.2 r.1

/-- Line 147 of the ISR: `i = key_state ^ ~KEY_PIN` — bit set where the
raw (inverted) sample disagrees with the debounced level. -/
def isr_changed (s : DebounceState) (keyPin : Nat) : Nat :=
  s.key_state ^^^ not8 keyPin

/-- Line 148: `ct0 = ~( ct0 & i )`. -/
def isr_ct0 (s : DebounceState) (keyPin : Nat) : Nat :=
  not8 (s.ct0 &&& isr_changed s keyPin)

/-- Line 149: `ct1 = ct0 ^ (ct1 & i)` — note that it reads the already
updated ct0, not the previous one. -/
def isr_ct1 (s : DebounceState) (keyPin : Nat) : Nat :=
  isr_ct0 s keyPin ^^^ (s.ct1 &&& isr_changed s keyPin)

/-- Line 150: `i &= ct0 & ct1` — the confirmed-change mask. -/
def isr_confirm (s : DebounceState) (keyPin : Nat) : Nat :=
  isr_changed s keyPin &&& isr_ct0 s keyPin &&& isr_ct1 s keyPin

/-- Line 151: `key_state ^= i`. -/
def isr_key_state (s : DebounceState) (keyPin : Nat) : Nat :=
  s.key_state ^^^ isr_confirm s keyPin

/-- Line 152: `key_press |= key_state & i` (with key_state already toggled). -/
def isr_key_press (s : DebounceState) (keyPin : Nat) : Nat :=
  s.key_press ||| (isr_key_state s keyPin &&& isr_confirm s keyPin)

/-- Lines 154-156: the optional reload `rpt = REPEAT_START` when no
repeat-eligible key is held, followed by the `unsigned char`
pre-decrement `--rpt`, which wraps modulo 256. -/
def isr_rpt_dec (s : DebounceState) (keyPin : Nat) : Nat :=
  ((if isr_key_state s keyPin &&& REPEAT_MASK = 0 then REPEAT_START else s.rpt) + 255) % 256

/-- ISR(TIMER0_OVF_vect) (lines 140-160): one tick of the integrator,
fed with the raw port value KEY_PIN for this tick.  When the decrement
reaches zero (line 156) the countdown reloads to REPEAT_NEXT and the
held repeat-eligible keys are ORed into key_rpt (lines 157-158). -/
def isrTick (s : DebounceState) (keyPin : Nat) : DebounceState :=
  { key_state := isr_key_state s keyPin
    key_press := isr_key_press s keyPin
    key_rpt := if isr_rpt_dec s keyPin = 0
               then s.key_rpt ||| (isr_key_state s keyPin &&& REPEAT_MASK)
               else s.key_rpt
    ct0 := isr_ct0 s keyPin
    ct1 := isr_ct1 s keyPin
    rpt := if isr_rpt_dec s keyPin = 0 then REPEAT_NEXT else isr_rpt_dec s keyPin }

/-- Iterated ticks over a list of raw port samples, oldest first. -/
def run (s : DebounceState) (pins : List Nat) : DebounceState :=
  pins.foldl isrTick s

/-- Startup state: every C variable is statically initialised to zero. -/
def initState : DebounceState := ⟨0, 0, 0, 0, 0, 0⟩

/-- One tick whose raw sample exactly reproduces the current debounced
levels: every pressed channel stays pressed and every released channel
stays released.  Used to model holding keys steadily. -/
def holdTick (s : DebounceState) : DebounceState :=
  isrTick s (not8 s.key_state)

/-- Iterated holding ticks. -/
def hold : Nat → DebounceState → DebounceState
  | 0, s => s
  | n + 1, s => holdTick (hold n s)

/-- Per-channel view of the debounce step: `d` is the debounced bit,
`c0`/`c1` the counter bits and `raw` the inverted raw sample bit of one
channel.  Every byte-wide operation of lines 147-151 acts on the bits
of one channel independently, and this is the induced action. -/
def chanStep (d c0 c1 raw : Bool) : Bool × Bool × Bool :=
  let ch := d ^^ raw
  let c0n := !(c0 && ch)
  let c1n := c0n ^^ (c1 && ch)
  let conf := ch && c0n && c1n
  (d ^^ conf, c0n, c1n)

/-- Value of the 2-bit consecutive-disagreement counter of channel `b`:
the counter bits are stored complemented (both bits of a freshly reset
channel read 1), so the count is formed from the negations. -/
def ctValue (s : DebounceState) (b : Nat) : Nat :=
  (if s.ct0.testBit b then 0 else 1) + 2 * (if s.ct1.testBit b then 0 else 1)

/-- Modelled from the spec (section 4.1, step 2): the counter update for
ct1 exactly as the specification sentence words it, `ct1 = changed XOR
(ct1 AND changed)`, in terms of the previous ct1 and of changed only. -/
def spec_ct1_update (ct1 changed : Nat) : Nat :=
  changed ^^^ (ct1 &&& changed)

/-- Bit `b` of the constant 255 is set for the eight channel positions. -/
theorem testBit_255 {b : Nat} (hb : b < 8) : (255 : Nat).testBit b = true := by
  rw [show (255 : Nat) = 2 ^ 8 - 1 from rfl, Nat.testBit_two_pow_sub_one]
  simpa using hb

/-- Channel bits of the 8-bit complement are the negated bits. -/
theorem not8_testBit (x : Nat) {b : Nat} (hb : b < 8) :
    (not8 x).testBit b = !(x.testBit b) := by
  rw [not8, Nat.testBit_xor, testBit_255 hb, Bool.xor_true]

/-- Double 8-bit complement is the identity. -/
theorem not8_not8 (x : Nat) : not8 (not8 x) = x := by
  rw [not8, not8, Nat.xor_assoc, Nat.xor_self, Nat.xor_zero]

/-- Bits of a byte above position 7 are clear. -/
theorem testBit_ge_eight {x b : Nat} (hx : x < 256) (hb : 8 ≤ b) :
    x.testBit b = false := by
  apply Nat.testBit_lt_two_pow
  calc x < 256 := hx
    _ = 2 ^ 8 := rfl
    _ ≤ 2 ^ b := Nat.pow_le_pow_right (by norm_num) hb

/-- Draining with xor: bit `b` survives the drain of mask `m` exactly
when it was set and not selected by `m`. -/
theorem drain_testBit (x m b : Nat) :
    (x ^^^ (m &&& x)).testBit b = (x.testBit b && !(m.testBit b)) := by
  rw [Nat.testBit_xor, Nat.testBit_and]
  cases x.testBit b <;> cases m.testBit b <;> rfl

/-- Draining with xor removes every returned bit. -/
theorem drain_and_ret (x m : Nat) : (x ^^^ (m &&& x)) &&& (m &&& x) = 0 := by
  apply Nat.eq_of_testBit_eq
  intro i
  rw [Nat.testBit_and, drain_testBit, Nat.testBit_and, Nat.zero_testBit]
  cases x.testBit i <;> cases m.testBit i <;> rfl

/-- C3: for every mask `m` and state, get_key_press returns exactly the
bits of key_press selected by `m`; afterwards key_press holds exactly
its previous bits outside `m`, so every returned bit is cleared and no
other bit moves.  The C function's cli/sei critical section is the
atomicity the claim requires; in the embedding the whole call is one
state transformation by construction. -/
theorem get_key_press_drains_pending (s : DebounceState) (m : Nat) :
    (get_key_press s m).1 = m &&& s.key_press ∧
    (((get_key_press s m).2).key_press &&& (get_key_press s m).1 = 0) ∧
    (∀ b : Nat, ((get_key_press s m).2).key_press.testBit b
        = (s.key_press.testBit b && !(m.testBit b))) ∧
    ((get_key_press s m).2).key_state = s.key_state ∧
    ((get_key_press s m).2).key_rpt = s.key_rpt ∧
    ((get_key_press s m).2).ct0 = s.ct0 ∧
    ((get_key_press s m).2).ct1 = s.ct1 ∧
    ((get_key_press s m).2).rpt = s.rpt :=
  ⟨rfl, drain_and_ret s.key_press m,
   fun b => drain_testBit s.key_press m b, rfl, rfl, rfl, rfl, rfl⟩

/-- C8: draining twice with the same mask and no tick in between returns
the empty mask the second time: each pending press bit is delivered at
most once. -/
theorem get_key_press_idempotent_drain (s : DebounceState) (m : Nat) :
    (get_key_press ((get_key_press s m).2) m).1 = 0 := by
  show m &&& (s.key_press ^^^ (m &&& s.key_press)) = 0
  apply Nat.eq_of_testBit_eq
  intro i
  rw [Nat.testBit_and, drain_testBit, Nat.zero_testBit]
  cases s.key_press.testBit i <;> cases m.testBit i <;> rfl

/-- C9: every query called with the empty mask returns the empty mask
and returns the state completely unchanged. -/
theorem empty_mask_no_side_effects (s : DebounceState) :
    get_key_press s 0 = (0, s) ∧
    get_key_rpt s 0 = (0, s) ∧
    get_key_short s 0 = (0, s) ∧
    get_key_long s 0 = (0, s) := by
  refine ⟨?_, ?_, ?_, ?_⟩ <;>
    simp [get_key_press, get_key_rpt, get_key_short, get_key_long,
      Nat.zero_and, Nat.and_zero, Nat.xor_zero]

/-- C5: get_key_short equals get_key_press called on `m AND NOT key_state`
(whole call, result and state), and a returned bit always belongs to a
channel whose debounced level is released while its press is still
pending — never to a channel still held down.  The byte bound on
key_state is the `unsigned char` width of the C variable. -/
theorem get_key_short_only_released (s : DebounceState) (m : Nat)
    (hks : s.key_state < 256) :
    get_key_short s m = get_key_press s (m &&& not8 s.key_state) ∧
    (∀ b : Nat, (get_key_short s m).1.testBit b = true →
      s.key_state.testBit b = false ∧ s.key_press.testBit b = true) := by
  constructor
  · rw [get_key_short, Nat.and_comm]
  · intro b h
    have hret : (get_key_short s m).1
        = (not8 s.key_state &&& m) &&& s.key_press := rfl
    rw [hret, Nat.testBit_and, Nat.testBit_and] at h
    simp only [Bool.and_eq_true] at h
    obtain ⟨⟨h1, _⟩, h3⟩ := h
    refine ⟨?_, h3⟩
    by_cases hb : b < 8
    · rw [not8_testBit _ hb] at h1
      simpa using h1
    · exact testBit_ge_eight hks (le_of_not_lt hb)

/-- Witness for C5 at a concrete state: channel 1 released with a
pending press is reported by get_key_short. -/
theorem get_key_short_only_released_witness :
    (⟨1, 2, 0, 255, 255, 49⟩ : DebounceState).key_state.testBit 1 = false ∧
    (⟨1, 2, 0, 255, 255, 49⟩ : DebounceState).key_press.testBit 1 = true :=
  (get_key_short_only_released ⟨1, 2, 0, 255, 255, 49⟩ 2 (by decide)).2 1 (by decide)

/-- C6: get_key_long is get_key_press applied to the result of
get_key_rpt, in that order; its result is exactly the channels of `m`
whose repeat and press bits are both still pending, and an immediate
second call with the same mask returns the empty mask, so a long press
is reported only once per repeat event. -/
theorem get_key_long_composition (s : DebounceState) (m : Nat) :
    get_key_long s m = get_key_press ((get_key_rpt s m).2) ((get_key_rpt s m).1) ∧
    (get_key_long s m).1 = (m &&& s.key_rpt) &&& s.key_press ∧
    (get_key_long ((get_key_long s m).2) m).1 = 0 := by
  refine ⟨rfl, rfl, ?_⟩
  have h1 : (get_key_long ((get_key_long s m).2) m).1
      = (m &&& (s.key_rpt ^^^ (m &&& s.key_rpt)))
        &&& (s.key_press ^^^ ((m &&& s.key_rpt) &&& s.key_press)) := rfl
  rw [h1]
  apply Nat.eq_of_testBit_eq
  intro i
  rw [Nat.zero_testBit, Nat.testBit_and, Nat.testBit_and, drain_testBit]
  cases m.testBit i <;> cases s.key_rpt.testBit i <;> simp

/-- C7: during a tick, a key_press bit can appear only on a confirmed
released-to-pressed transition of the same channel's key_state bit, and
a confirmed pressed-to-released transition leaves the channel's
key_press bit exactly as it was. -/
theorem key_press_set_only_on_rising (s : DebounceState) (pin b : Nat) :
    ((isrTick s pin).key_press.testBit b = true → s.key_press.testBit b = true ∨
      (s.key_state.testBit b = false ∧ (isrTick s pin).key_state.testBit b = true)) ∧
    (s.key_state.testBit b = true → (isrTick s pin).key_state.testBit b = false →
      (isrTick s pin).key_press.testBit b = s.key_press.testBit b) := by
  have hp : (isrTick s pin).key_press.testBit b
      = (s.key_press.testBit b
          || ((isrTick s pin).key_state.testBit b && (isr_confirm s pin).testBit b)) := by
    show (isr_key_press s pin).testBit b = _
    rw [isr_key_press, Nat.testBit_or, Nat.testBit_and]
    exact rfl
  have hs : (isrTick s pin).key_state.testBit b
      = (s.key_state.testBit b ^^ (isr_confirm s pin).testBit b) := by
    show (isr_key_state s pin).testBit b = _
    rw [isr_key_state, Nat.testBit_xor]
  rw [hp, hs]
  cases s.key_press.testBit b <;> cases s.key_state.testBit b <;>
    cases (isr_confirm s pin).testBit b <;> simp

/-- Witness for C7: the startup press of channel 4 is a rising edge. -/
theorem key_press_set_only_on_rising_witness :
    initState.key_press.testBit 4 = true ∨
    (initState.key_state.testBit 4 = false ∧
      (isrTick initState 239).key_state.testBit 4 = true) :=
  (key_press_set_only_on_rising initState 239 4).1 (by decide)

/-- C2 counterexample: on the tick out of the startup state with no key
pressed, `changed` is 0 and the code sets ct1 to 255, while the
formula of the claim, `ct1 = changed XOR (ct1 AND changed)`, yields 0.
The code feeds the already-updated ct0 into the ct1 update (line 149),
not `changed` as the claim words it. -/
theorem ct1_spec_formula_refuted :
    (isrTick initState 255).ct1 ≠ spec_ct1_update initState.ct1 (isr_changed initState 255) := by
  decide

/-- C2 amended: per tick, ct0 is updated as `NOT (ct0 AND changed)` and
ct1 as `ct0' XOR (ct1 AND changed)` where ct0' is the freshly updated
ct0; with the counter bits read complemented (a reset channel has both
bits 1), each channel's 2-bit count resets to 0 whenever that channel's
`changed` bit is 0 and increments modulo 4 otherwise. -/
theorem ct_counter_update_amended (s : DebounceState) (pin : Nat) :
    (isrTick s pin).ct0 = not8 (s.ct0 &&& isr_changed s pin) ∧
    (isrTick s pin).ct1 = ((isrTick s pin).ct0 ^^^ (s.ct1 &&& isr_changed s pin)) ∧
    (∀ b : Nat, b < 8 →
      ((isr_changed s pin).testBit b = false → ctValue (isrTick s pin) b = 0) ∧
      ((isr_changed s pin).testBit b = true →
        ctValue (isrTick s pin) b = (ctValue s b + 1) % 4)) := by
  refine ⟨rfl, rfl, ?_⟩
  intro b hb
  have hc0 : (isrTick s pin).ct0.testBit b
      = !(s.ct0.testBit b && (isr_changed s pin).testBit b) := by
    show (isr_ct0 s pin).testBit b = _
    rw [isr_ct0, not8_testBit _ hb, Nat.testBit_and]
  have hc1 : (isrTick s pin).ct1.testBit b
      = ((isrTick s pin).ct0.testBit b
          ^^ (s.ct1.testBit b && (isr_changed s pin).testBit b)) := by
    show (isr_ct1 s pin).testBit b = _
    rw [isr_ct1, Nat.testBit_xor, Nat.testBit_and]
    exact rfl
  constructor
  · intro h
    simp only [ctValue]
    rw [hc1, hc0, h]
    simp
  · intro h
    simp only [ctValue]
    rw [hc1, hc0, h]
    cases s.ct0.testBit b <;> cases s.ct1.testBit b <;> rfl

/-- Witness for C2's amended theorem: channel 4 disagreeing out of a
saturated counter state makes the count go from 0 to 1. -/
theorem ct_counter_update_amended_witness :
    ctValue (isrTick ⟨0, 0, 0, 255, 255, 49⟩ 239) 4
      = (ctValue ⟨0, 0, 0, 255, 255, 49⟩ 4 + 1) % 4 :=
  ((ct_counter_update_amended ⟨0, 0, 0, 255, 255, 49⟩ 239).2.2 4 (by decide)).2 (by decide)

/-- C10: out of the all-zero startup state one single tick is enough:
the debounced state and the pending-press mask both become the inverted
raw sample, so a channel whose line reads asserted (pin bit low) on the
very first tick is debounced pressed, and its press recorded, after
that one tick — the three-consecutive-sample filter does not delay the
first transition out of reset, because the counter bytes start at zero,
which the complemented counter encoding reads as a saturated count. -/
theorem startup_first_tick_immediate (pin : Nat) (hpin : pin < 256) :
    (isrTick initState pin).key_state = not8 pin ∧
    (isrTick initState pin).key_press = not8 pin ∧
    (∀ b : Nat, b < 8 → pin.testBit b = false →
      ((isrTick initState pin).key_state.testBit b = true ∧
       (isrTick initState pin).key_press.testBit b = true)) := by
  have hch : isr_changed initState pin = not8 pin := by
    show (0 : Nat) ^^^ not8 pin = not8 pin
    exact Nat.zero_xor _
  have hnp : not8 pin < 256 := @Nat.xor_lt_two_pow pin 255 8 hpin (by norm_num)
  have h255 : not8 pin &&& 255 = not8 pin := by
    apply Nat.eq_of_testBit_eq
    intro i
    rw [Nat.testBit_and]
    by_cases hi : i < 8
    · rw [testBit_255 hi, Bool.and_true]
    · rw [testBit_ge_eight hnp (le_of_not_lt hi)]
      rfl
  have hct0 : isr_ct0 initState pin = 255 := by
    show not8 ((0 : Nat) &&& isr_changed initState pin) = 255
    rw [Nat.zero_and]
    decide
  have hct1 : isr_ct1 initState pin = 255 := by
    show isr_ct0 initState pin ^^^ ((0 : Nat) &&& isr_changed initState pin) = 255
    rw [hct0, Nat.zero_and, Nat.xor_zero]
  have hconf : isr_confirm initState pin = not8 pin := by
    show (isr_changed initState pin &&& isr_ct0 initState pin)
        &&& isr_ct1 initState pin = not8 pin
    rw [hch, hct0, hct1, h255, h255]
  have hks : isr_key_state initState pin = not8 pin := by
    show (0 : Nat) ^^^ isr_confirm initState pin = not8 pin
    rw [hconf, Nat.zero_xor]
  have hkp : isr_key_press initState pin = not8 pin := by
    show (0 : Nat) ||| (isr_key_state initState pin &&& isr_confirm initState pin) = not8 pin
    rw [hks, hconf, Nat.and_self, Nat.zero_or]
  refine ⟨hks, hkp, ?_⟩
  intro b hb hpb
  constructor
  · show (isr_key_state initState pin).testBit b = true
    rw [hks, not8_testBit _ hb, hpb]
    rfl
  · show (isr_key_press initState pin).testBit b = true
    rw [hkp, not8_testBit _ hb, hpb]
    rfl

/-- Witness for C10: channel 4 asserted at startup (pin value 239) is
debounced and recorded as pressed after the very first tick. -/
theorem startup_first_tick_immediate_witness :
    (isrTick initState 239).key_state.testBit 4 = true ∧
    (isrTick initState 239).key_press.testBit 4 = true :=
  (startup_first_tick_immediate 239 (by decide)).2.2 4 (by decide) (by decide)

/-- Channel projection of the tick: for each channel position, the
debounced bit and the two counter bits after a tick are `chanStep`
applied to the same channel's bits before the tick and to the inverted
raw sample bit — lines 147-151 are bit-parallel. -/
theorem isrTick_chanStep (s : DebounceState) (pin : Nat) {b : Nat} (hb : b < 8) :
    (isrTick s pin).key_state.testBit b
      = (chanStep (s.key_state.testBit b) (s.ct0.testBit b) (s.ct1.testBit b)
          ((not8 pin).testBit b)).1 ∧
    (isrTick s pin).ct0.testBit b
      = (chanStep (s.key_state.testBit b) (s.ct0.testBit b) (s.ct1.testBit b)
          ((not8 pin).testBit b)).2.1 ∧
    (isrTick s pin).ct1.testBit b
      = (chanStep (s.key_state.testBit b) (s.ct0.testBit b) (s.ct1.testBit b)
          ((not8 pin).testBit b)).2.2 := by
  have hch : (isr_changed s pin).testBit b
      = (s.key_state.testBit b ^^ (not8 pin).testBit b) := by
    rw [isr_changed, Nat.testBit_xor]
  have hc0 : (isr_ct0 s pin).testBit b
      = !(s.ct0.testBit b && (isr_changed s pin).testBit b) := by
    rw [isr_ct0, not8_testBit _ hb, Nat.testBit_and]
  have hc1 : (isr_ct1 s pin).testBit b
      = ((isr_ct0 s pin).testBit b
          ^^ (s.ct1.testBit b && (isr_changed s pin).testBit b)) := by
    rw [isr_ct1, Nat.testBit_xor, Nat.testBit_and]
  have hcf : (isr_confirm s pin).testBit b
      = ((isr_changed s pin).testBit b && (isr_ct0 s pin).testBit b
          && (isr_ct1 s pin).testBit b) := by
    rw [isr_confirm, Nat.testBit_and, Nat.testBit_and]
  refine ⟨?_, ?_, ?_⟩
  · show (isr_key_state s pin).testBit b = _
    rw [isr_key_state, Nat.testBit_xor, hcf, hc1, hc0, hch]
    rfl
  · show (isr_ct0 s pin).testBit b = _
    rw [hc0, hch]
    rfl
  · show (isr_ct1 s pin).testBit b = _
    rw [hc1, hc0, hch]
    rfl

/-- Agreement step for one channel: when the inverted raw bit equals
the debounced bit the debounced bit survives and both counter bits
saturate at 1 (count 0). -/
theorem chanStep_agree (d c0 c1 : Bool) : chanStep d c0 c1 d = (d, true, true) := by
  cases d <;> cases c0 <;> cases c1 <;> rfl

/-- First disagreeing step out of a saturated counter. -/
theorem chanStep_dis1 (d : Bool) : chanStep d true true (!d) = (d, false, true) := by
  cases d <;> rfl

/-- Second consecutive disagreeing step. -/
theorem chanStep_dis2 (d : Bool) : chanStep d false true (!d) = (d, true, false) := by
  cases d <;> rfl

/-- Third consecutive disagreeing step. -/
theorem chanStep_dis3 (d : Bool) : chanStep d true false (!d) = (d, false, false) := by
  cases d <;> rfl

/-- Fourth consecutive disagreeing step: the counter saturates while
still disagreeing and the debounced bit flips. -/
theorem chanStep_dis4 (d : Bool) : chanStep d false false (!d) = ((!d), true, true) := by
  cases d <;> rfl

/-- C1: for every channel position, an agreeing tick leaves the
debounced bit unchanged and saturates both counter bits — so any state
in which the raw sample has agreed with the debounced level for at
least one tick has both counter bits set; from such a steady state, the
disagreeing ticks indexed 0, 1 and 2 leave the debounced bit unchanged,
and the disagreeing tick indexed 3 flips it — fewer consecutive
disagreeing ticks never flip it. -/
theorem key_state_flip_timing (b : Nat) (hb : b < 8) :
    (∀ (s : DebounceState) (p : Nat),
      (not8 p).testBit b = s.key_state.testBit b →
      ((isrTick s p).key_state.testBit b = s.key_state.testBit b ∧
       (isrTick s p).ct0.testBit b = true ∧
       (isrTick s p).ct1.testBit b = true)) ∧
    (∀ (s : DebounceState) (p0 p1 p2 p3 : Nat),
      s.ct0.testBit b = true →
      s.ct1.testBit b = true →
      (not8 p0).testBit b = !(s.key_state.testBit b) →
      (not8 p1).testBit b = !((isrTick s p0).key_state.testBit b) →
      (not8 p2).testBit b = !((isrTick (isrTick s p0) p1).key_state.testBit b) →
      (not8 p3).testBit b
        = !((isrTick (isrTick (isrTick s p0) p1) p2).key_state.testBit b) →
      ((isrTick s p0).key_state.testBit b = s.key_state.testBit b ∧
       (isrTick (isrTick s p0) p1).key_state.testBit b = s.key_state.testBit b ∧
       (isrTick (isrTick (isrTick s p0) p1) p2).key_state.testBit b
         = s.key_state.testBit b ∧
       (isrTick (isrTick (isrTick (isrTick s p0) p1) p2) p3).key_state.testBit b
         = !(s.key_state.testBit b))) := by
  constructor
  · intro s p hagree
    obtain ⟨h1, h2, h3⟩ := isrTick_chanStep s p hb
    rw [hagree, chanStep_agree] at h1 h2 h3
    exact ⟨h1, h2, h3⟩
  · intro s p0 p1 p2 p3 hcA hcB h0 h1 h2 h3
    obtain ⟨e1s, e1c0, e1c1⟩ := isrTick_chanStep s p0 hb
    rw [hcA, hcB, h0, chanStep_dis1] at e1s e1c0 e1c1
    have f1s : (isrTick s p0).key_state.testBit b = s.key_state.testBit b := e1s
    have f1c0 : (isrTick s p0).ct0.testBit b = false := e1c0
    have f1c1 : (isrTick s p0).ct1.testBit b = true := e1c1
    obtain ⟨e2s, e2c0, e2c1⟩ := isrTick_chanStep (isrTick s p0) p1 hb
    rw [h1, f1s, f1c0, f1c1, chanStep_dis2] at e2s e2c0 e2c1
    have f2s : (isrTick (isrTick s p0) p1).key_state.testBit b
        = s.key_state.testBit b := e2s
    have f2c0 : (isrTick (isrTick s p0) p1).ct0.testBit b = true := e2c0
    have f2c1 : (isrTick (isrTick s p0) p1).ct1.testBit b = false := e2c1
    obtain ⟨e3s, e3c0, e3c1⟩ := isrTick_chanStep (isrTick (isrTick s p0) p1) p2 hb
    rw [h2, f2s, f2c0, f2c1, chanStep_dis3] at e3s e3c0 e3c1
    have f3s : (isrTick (isrTick (isrTick s p0) p1) p2).key_state.testBit b
        = s.key_state.testBit b := e3s
    have f3c0 : (isrTick (isrTick (isrTick s p0) p1) p2).ct0.testBit b = false := e3c0
    have f3c1 : (isrTick (isrTick (isrTick s p0) p1) p2).ct1.testBit b = false := e3c1
    obtain ⟨e4s, _, _⟩ :=
      isrTick_chanStep (isrTick (isrTick (isrTick s p0) p1) p2) p3 hb
    rw [h3, f3s, f3c0, f3c1, chanStep_dis4] at e4s
    exact ⟨f1s, f2s, f3s, e4s⟩

/-- Witness for C1: channel 4 held down out of the quiescent steady
state flips the debounced bit exactly on the fourth disagreeing tick. -/
theorem key_state_flip_timing_witness :
    (isrTick (isrTick (isrTick (isrTick ⟨0, 0, 0, 255, 255, 49⟩ 239) 239) 239)
        239).key_state.testBit 4
      = !((⟨0, 0, 0, 255, 255, 49⟩ : DebounceState).key_state.testBit 4) :=
  ((key_state_flip_timing 4 (by decide)).2 ⟨0, 0, 0, 255, 255, 49⟩ 239 239 239 239
    (by decide) (by decide) (by decide) (by decide) (by decide) (by decide)).2.2.2

/-- C4 counterexample: hold channel 4 from startup after one quiescent
tick.  The press is debounced on the fourth pressed sample (the run of
four pressed ticks sets key_state, the run of three does not), and the
repeat bit is already set 48 ticks after that debounce tick (52 pressed
samples in total) while it is still clear one tick before — the first
repeat therefore fires 48 ticks after the debounced press, not at
REPEAT_START = 50 ticks as the claim states. -/
theorem repeat_first_fire_at_48_not_50 :
    (run initState (255 :: List.replicate 3 239)).key_state = 0 ∧
    (run initState (255 :: List.replicate 4 239)).key_state = 16 ∧
    (run initState (255 :: List.replicate 51 239)).key_rpt = 0 ∧
    (run initState (255 :: List.replicate 52 239)).key_rpt = 16 := by
  refine ⟨?_, ?_, ?_, ?_⟩ <;> decide

/-- Behaviour of one holding tick while a repeat-eligible key is held:
the levels and the pending presses are untouched; with countdown 1 the
tick fires (reload to REPEAT_NEXT, held keys ORed into key_rpt), with a
larger countdown it merely decrements. -/
theorem holdTick_held (s : DebounceState) (h : s.key_state &&& REPEAT_MASK ≠ 0)
    (h1 : 1 ≤ s.rpt) (h2 : s.rpt ≤ 255) :
    (holdTick s).key_state = s.key_state ∧
    (holdTick s).key_press = s.key_press ∧
    (s.rpt = 1 → (holdTick s).rpt = REPEAT_NEXT ∧
      (holdTick s).key_rpt = (s.key_rpt ||| (s.key_state &&& REPEAT_MASK))) ∧
    (2 ≤ s.rpt → (holdTick s).rpt = s.rpt - 1 ∧ (holdTick s).key_rpt = s.key_rpt) := by
  have hch : isr_changed s (not8 s.key_state) = 0 := by
    rw [isr_changed, not8_not8, Nat.xor_self]
  have hconf : isr_confirm s (not8 s.key_state) = 0 := by
    show (isr_changed s (not8 s.key_state) &&& isr_ct0 s (not8 s.key_state))
        &&& isr_ct1 s (not8 s.key_state) = 0
    rw [hch, Nat.zero_and, Nat.zero_and]
  have hks : isr_key_state s (not8 s.key_state) = s.key_state := by
    rw [isr_key_state, hconf, Nat.xor_zero]
  have hkp : isr_key_press s (not8 s.key_state) = s.key_press := by
    rw [isr_key_press, hconf, Nat.and_zero, Nat.or_zero]
  have hcond : ¬ (isr_key_state s (not8 s.key_state) &&& REPEAT_MASK = 0) := by
    rw [hks]; exact h
  have hdec : isr_rpt_dec s (not8 s.key_state) = (s.rpt + 255) % 256 := by
    rw [isr_rpt_dec, if_neg hcond]
  refine ⟨hks, hkp, ?_, ?_⟩
  · intro hr
    have hz : isr_rpt_dec s (not8 s.key_state) = 0 := by
      rw [hdec, hr]
    constructor
    · show (if isr_rpt_dec s (not8 s.key_state) = 0 then REPEAT_NEXT
          else isr_rpt_dec s (not8 s.key_state)) = REPEAT_NEXT
      rw [if_pos hz]
    · show (if isr_rpt_dec s (not8 s.key_state) = 0
          then s.key_rpt ||| (isr_key_state s (not8 s.key_state) &&& REPEAT_MASK)
          else s.key_rpt) = (s.key_rpt ||| (s.key_state &&& REPEAT_MASK))
      rw [if_pos hz, hks]
  · intro hr
    have hz : isr_rpt_dec s (not8 s.key_state) = s.rpt - 1 := by
      rw [hdec]; omega
    have hnz : ¬ (isr_rpt_dec s (not8 s.key_state) = 0) := by
      rw [hz]; omega
    constructor
    · show (if isr_rpt_dec s (not8 s.key_state) = 0 then REPEAT_NEXT
          else isr_rpt_dec s (not8 s.key_state)) = s.rpt - 1
      rw [if_neg hnz, hz]
    · show (if isr_rpt_dec s (not8 s.key_state) = 0
          then s.key_rpt ||| (isr_key_state s (not8 s.key_state) &&& REPEAT_MASK)
          else s.key_rpt) = s.key_rpt
      rw [if_neg hnz]

/-- C4 amended: (i) a tick sets a channel's repeat bit only while that
channel's debounced level is pressed after the tick; (ii) every tick
that ends with all repeat-eligible channels released leaves the
countdown at REPEAT_START - 1 = 49 (reload then pre-decrement); (iii)
the tick on which a repeat-eligible press is debounced decrements the
countdown to REPEAT_START - 2 = 48 without reloading; and (iv) holding
the keys steadily from that state, the countdown follows 48 - n until
the first fire and then the REPEAT_NEXT cycle, the repeat bits of the
held keys appear exactly from the 48th holding tick on, and the
countdown reads 1 — that is, the next tick fires — exactly at holding
ticks 47 + 20k: the first repeat fires REPEAT_START - 2 = 48 ticks
after the debounced press, not REPEAT_START ticks, and every
REPEAT_NEXT = 20 ticks thereafter. -/
theorem repeat_cadence_amended :
    (∀ (s : DebounceState) (pin b : Nat),
      (isrTick s pin).key_rpt.testBit b = true →
      s.key_rpt.testBit b = true ∨ (isrTick s pin).key_state.testBit b = true) ∧
    (∀ (s : DebounceState) (pin : Nat),
      (isrTick s pin).key_state &&& REPEAT_MASK = 0 →
      (isrTick s pin).rpt = REPEAT_START - 1) ∧
    (∀ (s : DebounceState) (pin : Nat),
      s.rpt = REPEAT_START - 1 →
      (isrTick s pin).key_state &&& REPEAT_MASK ≠ 0 →
      (isrTick s pin).rpt = REPEAT_START - 2) ∧
    (∀ (s : DebounceState),
      s.key_state &&& REPEAT_MASK ≠ 0 →
      s.rpt = REPEAT_START - 2 →
      ∀ n : Nat,
        (hold n s).key_state = s.key_state ∧
        (hold n s).rpt = (if n < 48 then 48 - n else 20 - ((n - 48) % 20)) ∧
        (hold n s).key_rpt
          = (s.key_rpt ||| (if 48 ≤ n then s.key_state &&& REPEAT_MASK else 0)) ∧
        ((hold n s).rpt = 1 ↔ (n = 47 ∨ (48 ≤ n ∧ (n - 48) % 20 = 19)))) := by
  refine ⟨?_, ?_, ?_, ?_⟩
  · intro s pin b h
    by_cases hz : isr_rpt_dec s pin = 0
    · have hr : (isrTick s pin).key_rpt
          = s.key_rpt ||| (isr_key_state s pin &&& REPEAT_MASK) := by
        show (if isr_rpt_dec s pin = 0 then _ else _) = _
        rw [if_pos hz]
      rw [hr, Nat.testBit_or, Nat.testBit_and] at h
      simp only [Bool.or_eq_true, Bool.and_eq_true] at h
      rcases h with h | ⟨h, _⟩
      · exact Or.inl h
      · exact Or.inr h
    · have hr : (isrTick s pin).key_rpt = s.key_rpt := by
        show (if isr_rpt_dec s pin = 0 then _ else _) = _
        rw [if_neg hz]
      rw [hr] at h
      exact Or.inl h
  · intro s pin h
    have h' : isr_key_state s pin &&& REPEAT_MASK = 0 := h
    have hdec : isr_rpt_dec s pin = 49 := by
      rw [isr_rpt_dec, if_pos h']
      decide
    have hnz : ¬ (isr_rpt_dec s pin = 0) := by
      rw [hdec]; omega
    show (if isr_rpt_dec s pin = 0 then REPEAT_NEXT else isr_rpt_dec s pin)
        = REPEAT_START - 1
    rw [if_neg hnz, hdec]
    decide
  · intro s pin h1 h2
    have h' : ¬ (isr_key_state s pin &&& REPEAT_MASK = 0) := h2
    have hdec : isr_rpt_dec s pin = 48 := by
      rw [isr_rpt_dec, if_neg h', h1]
      decide
    have hnz : ¬ (isr_rpt_dec s pin = 0) := by
      rw [hdec]; omega
    show (if isr_rpt_dec s pin = 0 then REPEAT_NEXT else isr_rpt_dec s pin)
        = REPEAT_START - 2
    rw [if_neg hnz, hdec]
    decide
  · intro s hpress hrpt
    have main : ∀ n : Nat,
        (hold n s).key_state = s.key_state ∧
        (hold n s).rpt = (if n < 48 then 48 - n else 20 - ((n - 48) % 20)) ∧
        (hold n s).key_rpt
          = (s.key_rpt ||| (if 48 ≤ n then s.key_state &&& REPEAT_MASK else 0)) := by
      intro n
      induction n with
      | zero =>
        refine ⟨rfl, ?_, ?_⟩
        · show s.rpt = _
          rw [hrpt]
          decide
        · show s.key_rpt = _
          rw [if_neg (by omega : ¬ (48:Nat) ≤ 0), Nat.or_zero]
      | succ n ih =>
        obtain ⟨ihks, ihrpt, ihkr⟩ := ih
        have hpress' : (hold n s).key_state &&& REPEAT_MASK ≠ 0 := by
          rw [ihks]; exact hpress
        have hbound1 : 1 ≤ (hold n s).rpt := by
          rw [ihrpt]
          rcases Nat.lt_or_ge n 48 with h | h
          · rw [if_pos h]; omega
          · rw [if_neg (by omega : ¬ n < 48)]; omega
        have hbound2 : (hold n s).rpt ≤ 255 := by
          rw [ihrpt]
          rcases Nat.lt_or_ge n 48 with h | h
          · rw [if_pos h]; omega
          · rw [if_neg (by omega : ¬ n < 48)]; omega
        obtain ⟨hks', hkp', hfire, hcount⟩ := holdTick_held (hold n s) hpress' hbound1 hbound2
        have hkstep : (hold (n + 1) s).key_state = s.key_state := by
          show (holdTick (hold n s)).key_state = s.key_state
          rw [hks', ihks]
        refine ⟨hkstep, ?_, ?_⟩
        · show (holdTick (hold n s)).rpt = _
          rcases Nat.lt_or_ge n 47 with h | h
          · have h2 : 2 ≤ (hold n s).rpt := by
              rw [ihrpt, if_pos (by omega : n < 48)]; omega
            rw [(hcount h2).1, ihrpt, if_pos (by omega : n < 48),
              if_pos (by omega : n + 1 < 48)]
            omega
          · rcases Nat.eq_or_lt_of_le h with h47 | h48
            · have h1 : (hold n s).rpt = 1 := by
                rw [ihrpt, if_pos (by omega : n < 48)]; omega
              rw [(hfire h1).1, if_neg (by omega : ¬ n + 1 < 48)]
              show (20 : Nat) = 20 - ((n + 1 - 48) % 20)
              omega
            · by_cases h19 : (n - 48) % 20 = 19
              · have h1 : (hold n s).rpt = 1 := by
                  rw [ihrpt, if_neg (by omega : ¬ n < 48)]; omega
                rw [(hfire h1).1, if_neg (by omega : ¬ n + 1 < 48)]
                show (20 : Nat) = 20 - ((n + 1 - 48) % 20)
                omega
              · have h2 : 2 ≤ (hold n s).rpt := by
                  rw [ihrpt, if_neg (by omega : ¬ n < 48)]; omega
                rw [(hcount h2).1, ihrpt, if_neg (by omega : ¬ n < 48),
                  if_neg (by omega : ¬ n + 1 < 48)]
                omega
        · show (holdTick (hold n s)).key_rpt = _
          rcases Nat.lt_or_ge n 47 with h | h
          · have h2 : 2 ≤ (hold n s).rpt := by
              rw [ihrpt, if_pos (by omega : n < 48)]; omega
            rw [(hcount h2).2, ihkr, if_neg (by omega : ¬ (48:Nat) ≤ n),
              if_neg (by omega : ¬ (48:Nat) ≤ n + 1)]
          · rcases Nat.eq_or_lt_of_le h with h47 | h48
            · have h1 : (hold n s).rpt = 1 := by
                rw [ihrpt, if_pos (by omega : n < 48)]; omega
              rw [(hfire h1).2, ihks, ihkr, if_neg (by omega : ¬ (48:Nat) ≤ n),
                Nat.or_zero, if_pos (by omega : (48:Nat) ≤ n + 1)]
            · by_cases h19 : (n - 48) % 20 = 19
              · have h1 : (hold n s).rpt = 1 := by
                  rw [ihrpt, if_neg (by omega : ¬ n < 48)]; omega
                rw [(hfire h1).2, ihks, ihkr, if_pos (by omega : (48:Nat) ≤ n),
                  if_pos (by omega : (48:Nat) ≤ n + 1), Nat.or_assoc, Nat.or_self]
              · have h2 : 2 ≤ (hold n s).rpt := by
                  rw [ihrpt, if_neg (by omega : ¬ n < 48)]; omega
                rw [(hcount h2).2, ihkr, if_pos (by omega : (48:Nat) ≤ n),
                  if_pos (by omega : (48:Nat) ≤ n + 1)]
    intro n
    obtain ⟨ha, hbn, hc⟩ := main n
    refine ⟨ha, hbn, hc, ?_⟩
    rw [hbn]
    rcases Nat.lt_or_ge n 48 with h | h
    · rw [if_pos h]
      constructor
      · intro he; exact Or.inl (by omega)
      · intro he; rcases he with he | ⟨he, _⟩ <;> omega
    · rw [if_neg (by omega : ¬ n < 48)]
      constructor
      · intro he
        exact Or.inr ⟨h, by omega⟩
      · intro he
        rcases he with he | ⟨_, he⟩ <;> omega

/-- Witness for C4's amended theorem: out of the concrete
just-debounced state of channel 4 the repeat bit is present after 48
holding ticks. -/
theorem repeat_cadence_amended_witness :
    (hold 48 (⟨16, 16, 0, 255, 255, 48⟩ : DebounceState)).key_rpt
      = ((⟨16, 16, 0, 255, 255, 48⟩ : DebounceState).key_rpt
          ||| (if 48 ≤ 48
               then (⟨16, 16, 0, 255, 255, 48⟩ : DebounceState).key_state &&& REPEAT_MASK
               else 0)) :=
  ((repeat_cadence_amended.2.2.2 ⟨16, 16, 0, 255, 255, 48⟩ (by decide) (by decide)) 48).2.2.1
